import Mathlib

/-!
# Verification of `circuit-sim` against its specification

Shallow embedding of the `circuit-sim` repository (package modules
`circuit_sim/circuit_sim.py` and `circuit_sim/analysis.py`) in Lean 4,
together with theorems settling the specification claims.

Conventions:
* Python `int` values are modelled as `Nat` where the source guarantees
  non-negativity (loop indices, counts) and as `Int` where the value may be
  negative or is subtracted (configured voltages, temperatures).
* Python `float` arithmetic appearing in the single expression
  `f"{1.05 * row}"` is modelled exactly: IEEE-754 binary64 values are
  represented as the rationals they denote, rounding to nearest (ties to
  even) is implemented on `ℚ`, and Python `repr`/`str` of a float is
  implemented as the shortest round-tripping decimal string.
* File writes are modelled as the list of the strings passed to `f.write`,
  in order; the file's content is their concatenation.
* The filesystem is modelled as an association list from file names to
  contents.
-/

set_option maxRecDepth 100000

namespace CircuitSim

/-! ## Geometry enumerator: `list_types` (circuit_sim.py lines 62-88) -/

/-- The Python label `f"{cellA}x{cellB}"`. -/
def shapeLabel (a b : Nat) : String := toString a ++ "x" ++ toString b

/-- Python `solar_cell = [x for x in range(1, i + 1) if (i % x == 0 and x <= i)]`. -/
def solarCellDivisors (i : Nat) : List Nat :=
  (List.range' 1 i).filter (fun x => i % x == 0 && decide (x ≤ i))

/-- The pairs appended for one entry `i` of `max_cells`: the body of the outer
loop of `list_types`, with both `continue` statements and the allow-list test
(`if f"{cellA}x{cellB}" not in sets_to_make and sets_to_make: continue`)
rendered as `Option` results of a `filterMap`. -/
def typesFor (i : Nat) (sets_to_make : List String) : List (Nat × Nat) :=
  (solarCellDivisors i).flatMap (fun cellA =>
    (solarCellDivisors i).filterMap (fun cellB =>
      if cellA = cellB ∧ cellA * cellB ≠ i then none
      else if cellA * cellB = i then
        if shapeLabel cellA cellB ∉ sets_to_make ∧ sets_to_make ≠ [] then none
        else some (cellA, cellB)
      else none))

/-- Python `list_types(max_cells, sets_to_make)` with `sets_to_make` a list (the
Python `None` default is not modelled: passing `None` would raise `TypeError`
at the first `not in` test, and every caller in the repository passes a
list). -/
def list_types (max_cells : List Nat) (sets_to_make : List String) :
    List (Nat × Nat) :=
  max_cells.flatMap (fun i => typesFor i sets_to_make)

theorem mem_solarCellDivisors {i x : Nat} :
    x ∈ solarCellDivisors i ↔ 1 ≤ x ∧ x ∣ i ∧ x ≤ i := by
  simp only [solarCellDivisors, List.mem_filter, List.mem_range'_1,
    Bool.and_eq_true, beq_iff_eq, decide_eq_true_eq]
  constructor
  · rintro ⟨⟨h1, -⟩, h2, h3⟩
    exact ⟨h1, Nat.dvd_of_mod_eq_zero h2, h3⟩
  · rintro ⟨h1, h2, h3⟩
    exact ⟨⟨h1, by omega⟩, Nat.mod_eq_zero_of_dvd h2, h3⟩

/-- Membership in the per-count block: a pair is produced for count `i`
iff it is a factorization of `i` which survives the allow-list test. -/
theorem mem_typesFor {i : Nat} (hi : 0 < i) (allow : List String)
    (a b : Nat) :
    (a, b) ∈ typesFor i allow ↔
      a * b = i ∧ (allow = [] ∨ shapeLabel a b ∈ allow) := by
  simp only [typesFor, List.mem_flatMap, List.mem_filterMap]
  constructor
  · rintro ⟨cA, hcA, cB, hcB, hsome⟩
    split_ifs at hsome with h1 h2 h3
    all_goals cases hsome
    refine ⟨h2, ?_⟩
    by_cases hall : allow = []
    · exact Or.inl hall
    · exact Or.inr (by_contra fun hmem => h3 ⟨hmem, hall⟩)
  · rintro ⟨hab, hallow⟩
    have ha0 : 0 < a := by
      rcases Nat.eq_zero_or_pos a with h | h
      · subst h; simp at hab; omega
      · exact h
    have hb0 : 0 < b := by
      rcases Nat.eq_zero_or_pos b with h | h
      · subst h; simp at hab; omega
      · exact h
    have hadvd : a ∣ i := ⟨b, hab.symm⟩
    have hbdvd : b ∣ i := ⟨a, by rw [← hab, Nat.mul_comm]⟩
    refine ⟨a, mem_solarCellDivisors.2 ⟨ha0, hadvd, Nat.le_of_dvd hi hadvd⟩,
      b, mem_solarCellDivisors.2 ⟨hb0, hbdvd, Nat.le_of_dvd hi hbdvd⟩, ?_⟩
    rw [if_neg (by rintro ⟨-, hne⟩; exact hne hab)]
    rw [if_pos hab]
    rcases hallow with h | h
    · rw [if_neg (by rintro ⟨-, hne⟩; exact hne h)]
    · rw [if_neg (by rintro ⟨hnot, -⟩; exact hnot h)]

/-- A `filterMap` on a duplicate-free list whose function can succeed on at
most one element produces at most one element. -/
theorem length_filterMap_le_one {α β : Type} {l : List α} (hl : l.Nodup)
    {f : α → Option β} (hf : ∀ x y, (f x).isSome → (f y).isSome → x = y) :
    (l.filterMap f).length ≤ 1 := by
  induction l with
  | nil => simp
  | cons a l ih =>
    rcases List.nodup_cons.1 hl with ⟨hal, hl'⟩
    cases hfa : f a with
    | none => simpa [List.filterMap_cons, hfa] using ih hl'
    | some b =>
      have : l.filterMap f = [] := by
        rw [List.filterMap_eq_nil]
        intro x hx
        cases hfx : f x with
        | none => rfl
        | some c =>
          exact absurd (hf x a (by simp [hfx]) (by simp [hfa]) ▸ hx) hal
      simp [List.filterMap_cons, hfa, this]

/-- Binding a strictly increasing list of keys through a block function that
tags every output with its key and yields at most one output per key gives a
list whose first components strictly increase. -/
theorem pairwise_fst_lt_bind {l : List Nat} (hl : l.Pairwise (· < ·))
    {g : Nat → List (Nat × Nat)}
    (hg1 : ∀ a, ∀ p ∈ g a, p.1 = a)
    (hg2 : ∀ a ∈ l, (g a).length ≤ 1) :
    (l.flatMap g).Pairwise (fun p q => p.1 < q.1) := by
  induction l with
  | nil => simp
  | cons a l ih =>
    rw [List.flatMap_cons, List.pairwise_append]
    refine ⟨?_, ih (List.pairwise_cons.1 hl).2
        (fun x hx => hg2 x (List.mem_cons_of_mem _ hx)), ?_⟩
    · have hlen := hg2 a (List.mem_cons_self _ _)
      match hga : g a, hlen with
      | [], _ => simp
      | [p], _ => simp
      | p :: q :: r, hlen => simp [hga] at hlen
    · intro p hp q hq
      obtain ⟨b, hb, hqb⟩ := List.mem_flatMap.1 hq
      rw [hg1 a p hp, hg1 b q hqb]
      exact (List.pairwise_cons.1 hl).1 b hb

/-- The block for one count has at most one pair per first component. -/
theorem typesFor_pairwise (i : Nat) (allow : List String) :
    (typesFor i allow).Pairwise (fun p q => p.1 < q.1) := by
  apply pairwise_fst_lt_bind
  · exact (List.pairwise_lt_range' 1 i).filter _
  · intro a p hp
    obtain ⟨b, _, hb⟩ := List.mem_filterMap.1 hp
    split_ifs at hb
    all_goals cases hb
    all_goals rfl
  · intro a ha
    have ha1 : 1 ≤ a := (mem_solarCellDivisors.1 ha).1
    apply length_filterMap_le_one (List.Nodup.filter _ (List.nodup_range' 1 i))
    intro x y hx hy
    have hax : a * x = i := by
      by_contra h
      revert hx
      split_ifs <;> simp_all
    have hay : a * y = i := by
      by_contra h
      revert hy
      split_ifs <;> simp_all
    exact Nat.eq_of_mul_eq_mul_left ha1 (hax.trans hay.symm)

/-- Claim C1: For every list of positive target total-cell counts and every
non-empty allow-list, `list_types` returns exactly the pairs `(a, b)` with
`a * b` equal to one of the target counts and label `"axb"` in the
allow-list; within the block generated for each target count the pairs appear
in strictly ascending order of `a`, and no pair appears twice. -/
theorem list_types_correct (counts : List Nat) (allow : List String)
    (hpos : ∀ i ∈ counts, 0 < i) (hne : allow ≠ []) :
    (∀ a b : Nat,
      (a, b) ∈ list_types counts allow ↔
        a * b ∈ counts ∧ shapeLabel a b ∈ allow) ∧
    (∀ i ∈ counts,
      (typesFor i allow).Pairwise (fun p q => p.1 < q.1) ∧
      (typesFor i allow).Nodup) ∧
    list_types counts allow = counts.flatMap (fun i => typesFor i allow) := by
  refine ⟨?_, ?_, rfl⟩
  · intro a b
    rw [list_types, List.mem_flatMap]
    constructor
    · rintro ⟨i, hi, hmem⟩
      obtain ⟨hab, hallow⟩ := (mem_typesFor (hpos i hi) allow a b).1 hmem
      rcases hallow with h | h
      · exact absurd h hne
      · exact ⟨hab ▸ hi, h⟩
    · rintro ⟨hmem, hlab⟩
      exact ⟨a * b, hmem,
        (mem_typesFor (hpos _ hmem) allow a b).2 ⟨rfl, Or.inr hlab⟩⟩
  · intro i hi
    have hp := typesFor_pairwise i allow
    exact ⟨hp, hp.imp (fun {p q} h => by
      intro hpq; rw [hpq] at h; exact Nat.lt_irrefl _ h)⟩

/-- Witness for `list_types_correct` at a concrete input. -/
theorem list_types_correct_witness :
    (∀ i ∈ [8], 0 < i) ∧ (["2x4", "4x2"] : List String) ≠ [] ∧
    ((2, 4) ∈ list_types [8] ["2x4", "4x2"] ↔
      2 * 4 ∈ [8] ∧ shapeLabel 2 4 ∈ ["2x4", "4x2"]) :=
  ⟨by decide, by decide,
    (list_types_correct [8] ["2x4", "4x2"] (by decide) (by decide)).1 2 4⟩

/-- Claim C9, counterexample: With an empty allow-list `list_types` does *not*
return the empty list: the Python test
`if f"{cellA}x{cellB}" not in sets_to_make and sets_to_make` is false for an
empty (falsy) `sets_to_make`, so no candidate is filtered out. -/
theorem list_types_empty_allow_ne_nil :
    list_types [8] [] = [(1, 8), (2, 4), (4, 2), (8, 1)] ∧
    list_types [8] [] ≠ [] := by
  constructor
  · rfl
  · intro h
    rw [show list_types [8] [] = [(1, 8), (2, 4), (4, 2), (8, 1)] from rfl]
      at h
    cases h

/-- Claim C9, amended: An empty allow-list disables the filter: `list_types`
then returns every factor pair of every (positive) target count, exactly as
with the `None` default documented as "defaults to everything". (The
enumerator itself is total on lists.) -/
theorem list_types_empty_allow (counts : List Nat)
    (hpos : ∀ i ∈ counts, 0 < i) :
    ∀ a b : Nat, (a, b) ∈ list_types counts [] ↔ a * b ∈ counts := by
  intro a b
  rw [list_types, List.mem_flatMap]
  constructor
  · rintro ⟨i, hi, hmem⟩
    obtain ⟨hab, -⟩ := (mem_typesFor (hpos i hi) [] a b).1 hmem
    exact hab ▸ hi
  · intro hmem
    exact ⟨a * b, hmem,
      (mem_typesFor (hpos _ hmem) [] a b).2 ⟨rfl, Or.inl rfl⟩⟩

/-- Witness for `list_types_empty_allow` at a concrete input. -/
theorem list_types_empty_allow_witness :
    (∀ i ∈ [8], 0 < i) ∧
    ((2, 4) ∈ list_types [8] [] ↔ 2 * 4 ∈ [8]) :=
  ⟨by decide, list_types_empty_allow [8] (by decide) 2 4⟩

/-! ## Temperature-range expansion (circuit_sim.py, `create_files`,
lines 330-342)

The loop
```
var_sets = temps.split(", ")
temp_sets = []
for val in var_sets:
    if "-" in val:
        lower, upper = val.split("-")
        results = [x for x in range(int(lower), int(upper) + 1)]
    else:
        results = [int(val)]
    temp_sets += results
```
is modelled token by token.  `int(...)` applied to a non-numeric token and
the two-element unpacking of `val.split("-")` raise in Python; both are
modelled as `none`. -/

/-- Splitting a character list on a (non-empty) separator, with enough fuel
to consume the whole input; same semantics as Python `str.split(sep)`.
(Implemented with explicit fuel so that it reduces inside the kernel; the
library `String.splitOn` is defined by well-founded recursion and does
not.) -/
def splitFuel (sep : List Char) : Nat → List Char → List Char →
    List (List Char)
  | 0, l, acc => [acc.reverse ++ l]
  | _ + 1, [], acc => [acc.reverse]
  | fuel + 1, c :: rest, acc =>
    if sep.isPrefixOf (c :: rest) then
      acc.reverse :: splitFuel sep fuel ((c :: rest).drop sep.length) []
    else splitFuel sep fuel rest (c :: acc)

/-- Python `s.split(sep)` for a non-empty separator. -/
def pySplit (s sep : String) : List String :=
  (splitFuel sep.data (s.data.length + 1) s.data []).map String.mk

/-- Decimal value of a digit character. -/
def digitVal (c : Char) : Option Nat :=
  if '0' ≤ c ∧ c ≤ '9' then some (c.toNat - '0'.toNat) else none

/-- Parse an unsigned decimal numeral. -/
def parseNatChars : List Char → Option Nat
  | [] => none
  | cs => go cs 0
where
  go : List Char → Nat → Option Nat
    | [], acc => some acc
    | c :: rest, acc =>
      match digitVal c with
      | some d => go rest (acc * 10 + d)
      | none => none

/-- Python `int(s)` on the sign-and-digits tokens the configuration grammar
uses (surrounding whitespace, `"+"` signs and `"_"` separators, which Python
would also accept, do not occur in the repository's configuration values). -/
def pyInt (s : String) : Option Int :=
  match s.data with
  | '-' :: rest => (parseNatChars rest).map (fun n => -(n : Int))
  | cs => (parseNatChars cs).map (fun n => (n : Int))

/-- Python `[x for x in range(l, u + 1)]` over Python ints. -/
def intRangeIncl (l u : Int) : List Int :=
  (List.range (u + 1 - l).toNat).map (fun k => l + k)

/-- Expansion of a single comma-separated token. -/
def expandToken (val : String) : Option (List Int) :=
  if val.data.contains '-' then
    match pySplit val "-" with
    | [lower, upper] =>
      match pyInt lower, pyInt upper with
      | some l, some u => some (intRangeIncl l u)
      | _, _ => none
    | _ => none
  else (pyInt val).map (fun n => [n])

/-- The `temp_sets += results` accumulation over all tokens. -/
def expandTokens : List String → Option (List Int)
  | [] => some []
  | v :: rest =>
    match expandToken v, expandTokens rest with
    | some r, some rs => some (r ++ rs)
    | _, _ => none

/-- The built-in default list used when the `temps` value is empty/falsy. -/
def defaultTemps : List Int := [27, 30, 35, 40, 45, 50]

/-- Temperature collection for one dataset: `if not temps: ... else: ...`. -/
def collectTemps (temps : String) : Option (List Int) :=
  if temps = "" then some defaultTemps
  else expandTokens (pySplit temps ", ")

/-- Claim C8: Temperature-range expansion maps `"27, 30-32"` to
`[27, 30, 31, 32]`, `"40-40"` to `[40]` and the empty string to the built-in
default list; in general a non-empty spec is split on `", "` and each token
contributes its single integer or its inclusive range, flattened in token
order with duplicates preserved. -/
theorem collectTemps_spec :
    collectTemps "27, 30-32" = some [27, 30, 31, 32] ∧
    collectTemps "40-40" = some [40] ∧
    collectTemps "" = some defaultTemps ∧
    (∀ s : String, s ≠ "" →
      collectTemps s = expandTokens (pySplit s ", ")) ∧
    (∀ ts : List String, (∀ t ∈ ts, expandToken t ≠ none) →
      expandTokens ts =
        some ((ts.map (fun t => (expandToken t).getD [])).flatten)) := by
  refine ⟨by decide, by decide, by decide, ?_, ?_⟩
  · intro s hs
    rw [collectTemps, if_neg hs]
  · intro ts hts
    induction ts with
    | nil => rfl
    | cons v rest ih =>
      have hv : expandToken v ≠ none := hts v (List.mem_cons_self _ _)
      obtain ⟨r, hr⟩ := Option.ne_none_iff_exists'.1 hv
      have hrest := ih (fun t ht => hts t (List.mem_cons_of_mem _ ht))
      simp [expandTokens, hr, hrest]

/-- Witness for `collectTemps_spec` at concrete inputs. -/
theorem collectTemps_spec_witness :
    ("27, 30-32" ≠ "") ∧ (∀ t ∈ ["27", "30-32"], expandToken t ≠ none) ∧
    collectTemps "27, 30-32" = expandTokens (pySplit "27, 30-32" ", ") ∧
    expandTokens ["27", "30-32"] =
      some (([ "27", "30-32"].map
        (fun t => (expandToken t).getD [])).flatten) :=
  ⟨by decide, by decide,
    collectTemps_spec.2.2.2.1 "27, 30-32" (by decide),
    collectTemps_spec.2.2.2.2 ["27", "30-32"] (by decide)⟩

/-! ## Python float arithmetic for `f"{1.05 * row}"`

The only floating-point computation in the generators is the sweep bound
`1.05 * row` interpolated into the `.dc` directive.  IEEE-754 binary64
values are modelled as the rational numbers they denote; `roundDouble`
rounds an arbitrary rational to the nearest representable value (53
significant bits, ties to even; the exponent range is unbounded, which is
exact for every magnitude this program produces), and `pyRepr` produces the
shortest decimal string that reads back to the same value — the algorithm
used by CPython's `repr`/`str`/f-string formatting of a float.

Rationals are represented as raw numerator/denominator pairs (`QD`, kept
with a positive denominator and never normalised) so that every operation
reduces inside the kernel; `Rat`'s gcd-normalising arithmetic does not. -/

/-- An unnormalised rational: numerator over positive denominator. -/
structure QD where
  num : Int
  den : Int
deriving DecidableEq, Repr

namespace QD

def ofInt (n : Int) : QD := ⟨n, 1⟩

def ofNat (n : Nat) : QD := ⟨(n : Int), 1⟩

def mul (a b : QD) : QD := ⟨a.num * b.num, a.den * b.den⟩

def div (a b : QD) : QD :=
  if 0 ≤ b.num then ⟨a.num * b.den, a.den * b.num⟩
  else ⟨-(a.num * b.den), -(a.den * b.num)⟩

def sub (a b : QD) : QD := ⟨a.num * b.den - b.num * a.den, a.den * b.den⟩

def neg (a : QD) : QD := ⟨-a.num, a.den⟩

/-- Test `a < b` (both denominators positive). -/
def blt (a b : QD) : Bool := a.num * b.den < b.num * a.den

/-- Test `a ≤ b`. -/
def ble (a b : QD) : Bool := a.num * b.den ≤ b.num * a.den

/-- Value equality (cross-multiplication). -/
def beq (a b : QD) : Bool := a.num * b.den == b.num * a.den

/-- Floor `⌊a⌋`. -/
def floor (a : QD) : Int := Int.fdiv a.num a.den

end QD

/-- Fuel-bounded binary logarithm: greatest `e` with `2 ^ e ≤ q`, for
`q > 0` within double range. -/
def floorLog2Aux : Nat → QD → Int → Int
  | 0, _, acc => acc
  | fuel + 1, q, acc =>
    if q.blt (QD.ofInt 1) then floorLog2Aux fuel (q.mul (QD.ofInt 2)) (acc - 1)
    else if (QD.ofInt 2).ble q then
      floorLog2Aux fuel (q.div (QD.ofInt 2)) (acc + 1)
    else acc

def floorLog2 (q : QD) : Int := floorLog2Aux 1200 q 0

/-- Integer power of two as a rational. -/
def qpow2 (e : Int) : QD :=
  if 0 ≤ e then ⟨(2 : Int) ^ e.toNat, 1⟩ else ⟨1, (2 : Int) ^ (-e).toNat⟩

/-- Round to the nearest integer, ties to even. -/
def roundHalfEven (q : QD) : Int :=
  let f := q.floor
  let r := q.sub (QD.ofInt f)
  if r.blt ⟨1, 2⟩ then f
  else if (⟨1, 2⟩ : QD).blt r then f + 1
  else if f % 2 = 0 then f else f + 1

/-- Round a positive rational to 53 significant binary digits. -/
def roundDoublePos (q : QD) : QD :=
  let e := floorLog2 q
  let s := qpow2 (52 - e)
  (QD.ofInt (roundHalfEven (q.mul s))).div s

/-- Nearest binary64 value of a rational (unbounded exponent). -/
def roundDouble (q : QD) : QD :=
  if q.beq (QD.ofInt 0) then QD.ofInt 0
  else if (QD.ofInt 0).blt q then roundDoublePos q
  else (roundDoublePos q.neg).neg

/-- Fuel-bounded decimal logarithm: greatest `e` with `10 ^ e ≤ q`. -/
def floorLog10Aux : Nat → QD → Int → Int
  | 0, _, acc => acc
  | fuel + 1, q, acc =>
    if q.blt (QD.ofInt 1) then
      floorLog10Aux fuel (q.mul (QD.ofInt 10)) (acc - 1)
    else if (QD.ofInt 10).ble q then
      floorLog10Aux fuel (q.div (QD.ofInt 10)) (acc + 1)
    else acc

def floorLog10 (q : QD) : Int := floorLog10Aux 400 q 0

/-- Integer power of ten as a rational. -/
def qpow10 (e : Int) : QD :=
  if 0 ≤ e then ⟨(10 : Int) ^ e.toNat, 1⟩ else ⟨1, (10 : Int) ^ (-e).toNat⟩

/-- Find the shortest decimal significand (trying 1 to 17 significant
digits) that rounds back to the double `x`; returns the digits and the
decimal exponent of the leading digit. -/
def shortestDigits (x : QD) (e10 : Int) : Nat → Nat → Nat × Int
  | 0, p => ((roundHalfEven (x.mul (qpow10 ((p : Int) - 1 - e10)))).toNat, e10)
  | fuel + 1, p =>
    let n := (roundHalfEven (x.mul (qpow10 ((p : Int) - 1 - e10)))).toNat
    let (n, e) := if n = 10 ^ p then (n / 10, e10 + 1) else (n, e10)
    if (roundDouble ((QD.ofNat n).div (qpow10 ((p : Int) - 1 - e)))).beq x
      then (n, e)
    else shortestDigits x e10 fuel (p + 1)

/-- Zero-padded two-digit rendering of `{n:02d}` for `n ≥ 0`. -/
def pad2 (n : Nat) : String :=
  if n < 10 then "0" ++ toString n else toString n

/-- Positional rendering `ddd.ddd` of a digit string with leading-digit
exponent `e10 ≥ -4`. -/
def fmtPositional (ds : List Char) (e10 : Int) : String :=
  if e10 < 0 then
    "0." ++ String.mk (List.replicate (-(e10 + 1)).toNat '0') ++ String.mk ds
  else
    let k := e10.toNat + 1
    if ds.length ≤ k then
      String.mk ds ++ String.mk (List.replicate (k - ds.length) '0') ++ ".0"
    else String.mk (ds.take k) ++ "." ++ String.mk (ds.drop k)

/-- Scientific rendering `d.ddde±XX`. -/
def fmtScientific (ds : List Char) (e10 : Int) : String :=
  (match ds with
    | [] => "0"
    | [c] => String.mk [c]
    | c :: rest => String.mk [c] ++ "." ++ String.mk rest) ++
  "e" ++ (if e10 < 0 then "-" else "+") ++ pad2 e10.natAbs

/-- CPython `repr` of a positive double. -/
def pyReprPos (x : QD) : String :=
  let e10 := floorLog10 x
  let (n, e) := shortestDigits x e10 17 1
  let ds := (toString n).data
  if e < -4 ∨ 16 ≤ e then fmtScientific ds e else fmtPositional ds e

/-- CPython `repr`/`str` of a double. -/
def pyRepr (x : QD) : String :=
  if x.beq (QD.ofInt 0) then "0.0"
  else if (QD.ofInt 0).blt x then pyReprPos x
  else "-" ++ pyReprPos x.neg

/-- The double denoted by the literal `1.05`. -/
def double105 : QD := roundDouble ⟨21, 20⟩

/-- The double computed by the Python expression `1.05 * row`. -/
def dcSweepValue (row : Nat) : QD := roundDouble (double105.mul (QD.ofNat row))

/-! ## Netlist generation: `create_file` and `create_special_file`
(circuit_sim.py lines 91-180 and 183-305)

Each element of a `writes` list is exactly one string passed to `f.write`,
in program order; the generated file's content is the concatenation of the
list. -/

/-- Node name `start = f"{i}{j}"`. -/
def nodeA (i j : Nat) : String := toString i ++ toString j

/-- Node name `end = f"{i}{j + 1}"`. -/
def nodeB (i j : Nat) : String := toString i ++ toString (j + 1)

/-- Banner `f"\n*** Start of Column {i + 1:02d}\n\n"`. -/
def colStartChunk (i : Nat) : String :=
  "\n*** Start of Column " ++ pad2 (i + 1) ++ "\n\n"

/-- Comment `f"** Cell {j:02d} [Col {i + 1:02d}]\n"`. -/
def cellCmtChunk (i j : Nat) : String :=
  "** Cell " ++ pad2 j ++ " [Col " ++ pad2 (i + 1) ++ "]\n"

/-- The `xcell_...` subcircuit-instance line. -/
def xcellChunk (i j row : Nat) : String :=
  "xcell_" ++ nodeA i j ++ "_" ++ nodeB i j ++ " " ++
  (if j ≠ row then nodeB i j else "0") ++ " " ++
  (if j ≠ 1 then nodeA i j else "01") ++ " " ++
  nodeB i j ++ nodeA i j ++
  " cell_2 params:area=49  j0=16E-20 j02=1.2E-12\n"

/-- Continuation `"+ jsc=30.5E-3 rs=28e-3 rsh=100000\n"`. -/
def plusChunk : String := "+ jsc=30.5E-3 rs=28e-3 rsh=100000\n"

/-- The `virrad_...` current-source line with dc value `v`. -/
def virradChunk (i j row : Nat) (v : Int) : String :=
  "virrad_" ++ nodeA i j ++ "_" ++ nodeB i j ++ "  " ++
  nodeB i j ++ nodeA i j ++ " " ++
  (if j ≠ row then nodeB i j else "0") ++ " dc " ++ toString v ++ "\n"

/-- Resistor line `f"r_{start}_{end} {start} 0 0.0001\n"` (short fault). -/
def shortChunk (i j : Nat) : String :=
  "r_" ++ nodeA i j ++ "_" ++ nodeB i j ++ " " ++ nodeA i j ++ " 0 0.0001\n"

/-- The writes for one cell of `create_file`: comment, subcircuit instance,
parameter continuation, current source (shade level iff
`(i + 1) * j <= num_shade`), blank line. -/
def cellChunks (i j row num_shade : Nat) (full shade : Int) : List String :=
  [cellCmtChunk i j, xcellChunk i j row, plusChunk,
    virradChunk i j row (if (i + 1) * j ≤ num_shade then shade else full),
    "\n"]

/-- The writes of `create_file` for column `i` (0-based). -/
def createFileCol (row num_shade : Nat) (full shade : Int) (i : Nat) :
    List String :=
  colStartChunk i ::
    (List.range' 1 row).flatMap (fun j => cellChunks i j row num_shade full shade)

/-- The four final writes shared by both generators. -/
def footerChunks (row : Nat) : List String :=
  ["\nvbias 01 0 dc 0\n", ".plot dc i(vbias)\n",
    ".dc vbias 0 " ++ pyRepr (dcSweepValue row) ++ " 0.01\n",
    ".probe\n.end\n"]

/-- All writes of `create_file(file_path, row, col, num_shade, full_volt,
shade_volt, temp)` once the existence check has passed. -/
def create_file_writes (row col num_shade : Nat) (full shade temp : Int) :
    List String :=
  ["* Files designed by circuit-sim by Nate Ruppert\n",
    "* Circuit Simulation of " ++ toString row ++ " Series x " ++
      toString col ++ " Parallel Solar Cell Arrangement\n",
    "* " ++ toString num_shade ++ " Shade " ++
      toString ((row * col : Int) - num_shade) ++ " No-Shade File\n",
    ".include cell_2.lib\n",
    ".option temp=" ++ toString temp, "\n"] ++
  (List.range col).flatMap (createFileCol row num_shade full shade) ++
  footerChunks row

/-- The writes for one cell of `create_special_file`: always the full
intensity; a shorting resistor after the last-row cell of the last
`type_num` columns when `file_type == "short"`.  (`i + 1 > col - type_num`
uses truncated `Nat` subtraction, which agrees with the Python `int`
comparison because `i + 1 ≥ 1 > 0`.) -/
def specialCellChunks (i j row col : Nat) (full : Int) (ftype : String)
    (type_num : Nat) : List String :=
  [cellCmtChunk i j, xcellChunk i j row, plusChunk, virradChunk i j row full] ++
  (if ftype = "short" ∧ j = row ∧ i + 1 > col - type_num
    then [shortChunk i j] else []) ++
  ["\n"]

/-- The writes of `create_special_file` for column `i` (0-based): the column
banner, then either the skip marker (`file_type == "open"` and
`i >= col - type_num`, again with `Nat` subtraction agreeing with Python
because `i ≥ 0`) or the cells. -/
def createSpecialCol (row col : Nat) (full : Int) (ftype : String)
    (type_num i : Nat) : List String :=
  colStartChunk i ::
    (if ftype = "open" ∧ i ≥ col - type_num then
      ["* Column Skipped due to Open Circuit\n"]
    else
      (List.range' 1 row).flatMap
        (fun j => specialCellChunks i j row col full ftype type_num))

/-- All writes of `create_special_file(file_path, row, col, full_volt, temp,
file_type, type_num)` once the existence check has passed. -/
def create_special_file_writes (row col : Nat) (full temp : Int)
    (ftype : String) (type_num : Nat) : List String :=
  ["* Files designed by circuit-sim by Nate Ruppert\n",
    "* Circuit Simulation of " ++ toString row ++ " Series x " ++
      toString col ++ " Parallel Solar Cell Arrangement\n",
    "* " ++ toString type_num ++ " " ++ ftype ++ " " ++
      toString ((row * col : Int) - type_num) ++ " No-" ++ ftype ++
      " File\n",
    ".include cell_2.lib\n",
    ".option temp=" ++ toString temp, "\n"] ++
  (List.range col).flatMap (createSpecialCol row col full ftype type_num) ++
  footerChunks row

/-! ## Filesystem model and the existence-check guards -/

/-- A filesystem as an association list from file names to contents. -/
def Fs : Type := List (String × String)

/-- Check `os.path.exists`. -/
def fsExists (fs : Fs) (name : String) : Bool :=
  fs.any (fun e => e.1 = name)

/-- Model of `open(name, "w+")` followed by writing `content`. -/
def fsWrite (fs : Fs) (name content : String) : Fs :=
  (name, content) :: fs.filter (fun e => ¬ e.1 = name)

/-- Contents of a file, if present. -/
def fsRead (fs : Fs) (name : String) : Option String :=
  (fs.find? (fun e => e.1 = name)).map (·.2)

/-- Python `str.capitalize()`: first character upper-cased, the rest
lower-cased. -/
def pyCapitalize (s : String) : String :=
  match s.data with
  | [] => ""
  | c :: rest => String.mk (c.toUpper :: rest.map Char.toLower)

/-- Target `f"{file_path}/{row}x{col}_{num_shade}_Shading.cir"`. -/
def shadingFileName (path : String) (row col num_shade : Nat) : String :=
  path ++ "/" ++ toString row ++ "x" ++ toString col ++ "_" ++
    toString num_shade ++ "_Shading.cir"

/-- Target `f"{file_path}/{row}x{col}_{type_num}_{file_type.capitalize()}.cir"`. -/
def specialFileName (path : String) (row col type_num : Nat)
    (ftype : String) : String :=
  path ++ "/" ++ toString row ++ "x" ++ toString col ++ "_" ++
    toString type_num ++ "_" ++ pyCapitalize ftype ++ ".cir"

/-- Function `create_file` as a filesystem transformation: skip if the target
exists, otherwise write the generated content. -/
def create_file (fs : Fs) (path : String) (row col num_shade : Nat)
    (full shade temp : Int) : Fs :=
  if fsExists fs (shadingFileName path row col num_shade) then fs
  else fsWrite fs (shadingFileName path row col num_shade)
    (String.join (create_file_writes row col num_shade full shade temp))

/-- Function `create_special_file` as a filesystem transformation. -/
def create_special_file (fs : Fs) (path : String) (row col : Nat)
    (full temp : Int) (ftype : String) (type_num : Nat) : Fs :=
  if fsExists fs (specialFileName path row col type_num ftype) then fs
  else fsWrite fs (specialFileName path row col type_num ftype)
    (String.join (create_special_file_writes row col full temp ftype type_num))

/-- Claim C7: When the target file already exists, neither generator writes:
the filesystem — and hence the existing file's content, byte for byte — is
unchanged by the call. -/
theorem generation_idempotent (fs : Fs) (path : String)
    (row col num_shade type_num : Nat) (full shade temp : Int)
    (ftype : String)
    (h1 : fsExists fs (shadingFileName path row col num_shade) = true)
    (h2 : fsExists fs (specialFileName path row col type_num ftype) = true) :
    create_file fs path row col num_shade full shade temp = fs ∧
    create_special_file fs path row col full temp ftype type_num = fs ∧
    fsRead (create_file fs path row col num_shade full shade temp)
        (shadingFileName path row col num_shade) =
      fsRead fs (shadingFileName path row col num_shade) ∧
    fsRead (create_special_file fs path row col full temp ftype type_num)
        (specialFileName path row col type_num ftype) =
      fsRead fs (specialFileName path row col type_num ftype) := by
  have hc : create_file fs path row col num_shade full shade temp = fs := by
    rw [create_file, if_pos h1]
  have hs : create_special_file fs path row col full temp ftype type_num
      = fs := by
    rw [create_special_file, if_pos h2]
  exact ⟨hc, hs, by rw [hc], by rw [hs]⟩

/-- Witness for `generation_idempotent` at a concrete filesystem. -/
theorem generation_idempotent_witness :
    (fsExists [("out/2x4_0_Shading.cir", "old"), ("out/2x4_1_Open.cir", "o")]
        (shadingFileName "out" 2 4 0) = true) ∧
    (fsExists [("out/2x4_0_Shading.cir", "old"), ("out/2x4_1_Open.cir", "o")]
        (specialFileName "out" 2 4 1 "open") = true) ∧
    create_file [("out/2x4_0_Shading.cir", "old"), ("out/2x4_1_Open.cir", "o")]
        "out" 2 4 0 1000 900 30 =
      [("out/2x4_0_Shading.cir", "old"), ("out/2x4_1_Open.cir", "o")] :=
  ⟨by decide, by decide,
    (generation_idempotent
      [("out/2x4_0_Shading.cir", "old"), ("out/2x4_1_Open.cir", "o")]
      "out" 2 4 0 1 1000 900 30 "open" (by decide) (by decide)).1⟩

/-- Congruence for `flatMap` over pointwise-equal block functions. -/
theorem flatMap_congr_mem {α β : Type} {l : List α} {f g : α → List β}
    (h : ∀ a ∈ l, f a = g a) : l.flatMap f = l.flatMap g := by
  induction l with
  | nil => rfl
  | cons a l ih =>
    rw [List.flatMap_cons, List.flatMap_cons, h a (List.mem_cons_self a l),
      ih (fun x hx => h x (List.mem_cons_of_mem _ hx))]

/-- Claim C6: For a `ColumnOpen(k)` job the generated text consists of the
header, the column blocks in order, and the footer, where every column
`i < col - k` is wired identically to the corresponding column of the
no-fault (`num_shade = 0`) netlist — for any shade level — and each of the
last `k` columns is reduced to its banner plus the skip marker, so its cell
subcircuit instances are omitted. -/
theorem columnOpen_spec (row col k : Nat) (full shade temp : Int)
    (_hk : 1 ≤ k) :
    (∀ i, i < col - k →
      createSpecialCol row col full "open" k i =
        createFileCol row 0 full shade i) ∧
    (∀ i, col - k ≤ i →
      createSpecialCol row col full "open" k i =
        [colStartChunk i, "* Column Skipped due to Open Circuit\n"]) ∧
    create_special_file_writes row col full temp "open" k =
      ["* Files designed by circuit-sim by Nate Ruppert\n",
        "* Circuit Simulation of " ++ toString row ++ " Series x " ++
          toString col ++ " Parallel Solar Cell Arrangement\n",
        "* " ++ toString k ++ " " ++ "open" ++ " " ++
          toString ((row * col : Int) - k) ++ " No-" ++ "open" ++
          " File\n",
        ".include cell_2.lib\n",
        ".option temp=" ++ toString temp, "\n"] ++
      (List.range col).flatMap (createSpecialCol row col full "open" k) ++
      footerChunks row := by
  refine ⟨?_, ?_, rfl⟩
  · intro i hi
    rw [createSpecialCol, createFileCol]
    rw [if_neg (by push_neg; intro; omega)]
    refine congrArg (colStartChunk i :: ·) (flatMap_congr_mem ?_)
    intro j hj
    have hj1 : 1 ≤ j := (List.mem_range'_1.1 hj).1
    rw [specialCellChunks, cellChunks]
    rw [if_neg (by rintro ⟨h, -⟩; exact absurd h (by decide))]
    rw [if_neg (by
      intro h
      have h2 : (i + 1) * j = 0 := Nat.le_zero.1 h
      have := Nat.mul_eq_zero.1 h2
      omega)]
    simp
  · intro i hi
    rw [createSpecialCol, if_pos ⟨rfl, hi⟩]

/-- Witness for `columnOpen_spec` at `row = 2`, `col = 4`, `k = 1`. -/
theorem columnOpen_spec_witness :
    (1 ≤ 1) ∧
    createSpecialCol 2 4 1000 "open" 1 0 = createFileCol 2 0 1000 900 0 ∧
    createSpecialCol 2 4 1000 "open" 1 3 =
      [colStartChunk 3, "* Column Skipped due to Open Circuit\n"] :=
  ⟨Nat.le_refl 1,
    (columnOpen_spec 2 4 1 1000 900 30 (Nat.le_refl 1)).1 0 (by decide),
    (columnOpen_spec 2 4 1 1000 900 30 (Nat.le_refl 1)).2.1 3 (by decide)⟩

/-! ## C2: the fault-free shading sweep for a 2×4 array at temperature 30 -/

/-- The `create_file` calls issued by `create_files` for one
shape/temperature: `for num in range(row * col + 1): create_file(...)`. -/
def runShadingSweep (fs : Fs) (path : String) (row col : Nat)
    (full shade temp : Int) : Fs :=
  (List.range (row * col + 1)).foldl
    (fun fs n => create_file fs path row col n full shade temp) fs

/-- Number of lines of `content` that read exactly `target`. -/
def lineCount (content target : String) : Nat :=
  (pySplit content "\n").countP (fun l => l = target)

/-- Claim C2, counterexample: The fault-free sweep for a 2×4 array at
temperature 30 with full = 1000 and shade = 900 produces 9 files, but none
of them contains a line `.dc vbias 0 2.10 0.01`: Python renders the float
`1.05 * 2` as `"2.1"`, so the claimed directive text occurs zero times in
every file. -/
theorem shadingSweep_dc_line_counterexample :
    ((runShadingSweep [] "Output/1000-900/Temp30/2x4" 2 4 1000 900 30).length
        = 9) ∧
    (runShadingSweep [] "Output/1000-900/Temp30/2x4" 2 4 1000 900 30).all
      (fun e => lineCount e.2 ".dc vbias 0 2.10 0.01" == 0) = true := by
  constructor
  · decide
  · decide

/-- Claim C2, amended: The fault-free sweep over counts 0..8 for a 2×4 array
at temperature 30 with full = 1000 and shade = 900 produces exactly 9
distinct netlist files under the corresponding directory, and each contains
exactly one sweep directive line reading `.dc vbias 0 2.1 0.01`. -/
theorem shadingSweep_spec :
    (runShadingSweep [] "Output/1000-900/Temp30/2x4" 2 4 1000 900 30).map
        Prod.fst =
      ["Output/1000-900/Temp30/2x4/2x4_8_Shading.cir",
        "Output/1000-900/Temp30/2x4/2x4_7_Shading.cir",
        "Output/1000-900/Temp30/2x4/2x4_6_Shading.cir",
        "Output/1000-900/Temp30/2x4/2x4_5_Shading.cir",
        "Output/1000-900/Temp30/2x4/2x4_4_Shading.cir",
        "Output/1000-900/Temp30/2x4/2x4_3_Shading.cir",
        "Output/1000-900/Temp30/2x4/2x4_2_Shading.cir",
        "Output/1000-900/Temp30/2x4/2x4_1_Shading.cir",
        "Output/1000-900/Temp30/2x4/2x4_0_Shading.cir"] ∧
    ((runShadingSweep [] "Output/1000-900/Temp30/2x4" 2 4 1000 900 30).map
      Prod.fst).Nodup ∧
    (runShadingSweep [] "Output/1000-900/Temp30/2x4" 2 4 1000 900 30).all
      (fun e => lineCount e.2 ".dc vbias 0 2.1 0.01" == 1) = true := by
  refine ⟨by decide, by decide, by decide⟩

/-! ## C10: which cells receive the shade-level current source -/

/-- Recogniser for a current-source write carrying dc value `v`: the chunk
starts with `virrad` and ends with ``" dc {v}\n"``. -/
def isVirradWith (v : Int) (w : String) : Bool :=
  "virrad".data.isPrefixOf w.data &&
    (" dc " ++ toString v ++ "\n").data.isSuffixOf w.data

/-- Number of current-source writes carrying dc value `v`. -/
def virradCount (v : Int) (ws : List String) : Nat :=
  ws.countP (isVirradWith v)

theorem isVirradWith_false_of_head_test {v : Int} {w : String}
    (h : "virrad".data.isPrefixOf w.data = false) :
    isVirradWith v w = false := by
  simp [isVirradWith, h]

theorem virrad_prefix_false_of_head {c : Char} (hc : ('v' == c) = false)
    (cs : List Char) :
    "virrad".data.isPrefixOf (c :: cs) = false := by
  rw [show "virrad".data = 'v' :: "irrad".data from rfl]
  simp [List.isPrefixOf, hc]

theorem isVirradWith_cellCmt (v : Int) (i j : Nat) :
    isVirradWith v (cellCmtChunk i j) = false := by
  apply isVirradWith_false_of_head_test
  rw [cellCmtChunk]
  simp only [String.data_append, List.append_assoc,
    show ("** Cell " : String).data = '*' :: "* Cell ".data from rfl,
    List.cons_append]
  exact virrad_prefix_false_of_head (by decide) _

theorem isVirradWith_xcell (v : Int) (i j row : Nat) :
    isVirradWith v (xcellChunk i j row) = false := by
  apply isVirradWith_false_of_head_test
  rw [xcellChunk]
  simp only [String.data_append, List.append_assoc,
    show ("xcell_" : String).data = 'x' :: "cell_".data from rfl,
    List.cons_append]
  exact virrad_prefix_false_of_head (by decide) _

theorem isVirradWith_plus (v : Int) : isVirradWith v plusChunk = false :=
  isVirradWith_false_of_head_test (by decide)

theorem isVirradWith_newline (v : Int) : isVirradWith v "\n" = false :=
  isVirradWith_false_of_head_test (by decide)

theorem isVirradWith_colStart (v : Int) (i : Nat) :
    isVirradWith v (colStartChunk i) = false := by
  apply isVirradWith_false_of_head_test
  rw [colStartChunk]
  simp only [String.data_append, List.append_assoc,
    show ("\n*** Start of Column " : String).data =
      '\n' :: "*** Start of Column ".data from rfl,
    List.cons_append]
  exact virrad_prefix_false_of_head (by decide) _

/-- The current-source chunk with value `v` matches its own recogniser. -/
theorem isVirradWith_virrad_self (v : Int) (i j row : Nat) :
    isVirradWith v (virradChunk i j row v) = true := by
  rw [isVirradWith, virradChunk]
  apply Bool.and_eq_true_iff.2
  constructor
  · rw [ List.isPrefixOf_iff_prefix]
    simp only [String.data_append, List.append_assoc,
      show ("virrad_" : String).data = "virrad".data ++ ['_'] from rfl]
    exact List.prefix_append _ _
  · rw [List.isSuffixOf_iff_suffix]
    refine ⟨("virrad_" ++ nodeA i j ++ "_" ++ nodeB i j ++ "  " ++
      nodeB i j ++ nodeA i j ++ " " ++
      (if j ≠ row then nodeB i j else "0")).data, ?_⟩
    simp [String.data_append, List.append_assoc]

/-- With `v ≠ v'` (as rendered suffixes, neither a suffix of the other),
the current-source chunk with value `v'` does not match the recogniser for
`v`. -/
theorem isVirradWith_virrad_ne (v v' : Int) (i j row : Nat)
    (h1 : ¬ (" dc " ++ toString v ++ "\n").data <:+
      (" dc " ++ toString v' ++ "\n").data)
    (h2 : ¬ (" dc " ++ toString v' ++ "\n").data <:+
      (" dc " ++ toString v ++ "\n").data) :
    isVirradWith v (virradChunk i j row v') = false := by
  rw [isVirradWith, virradChunk]
  apply Bool.and_eq_false_iff.2
  right
  rw [Bool.eq_false_iff]
  intro hsfx
  rw [List.isSuffixOf_iff_suffix] at hsfx
  have hsplit : ("virrad_" ++ nodeA i j ++ "_" ++ nodeB i j ++ "  " ++
      nodeB i j ++ nodeA i j ++ " " ++
      (if j ≠ row then nodeB i j else "0") ++ " dc " ++ toString v' ++
        "\n").data =
      ("virrad_" ++ nodeA i j ++ "_" ++ nodeB i j ++ "  " ++
        nodeB i j ++ nodeA i j ++ " " ++
        (if j ≠ row then nodeB i j else "0")).data ++
      (" dc " ++ toString v' ++ "\n").data := by
    simp [String.data_append, List.append_assoc]
  rw [hsplit] at hsfx
  rcases List.suffix_or_suffix_of_suffix hsfx (List.suffix_append _ _) with
    h | h
  · exact h1 h
  · exact h2 h

theorem isVirradWith_h1 (v : Int) :
    isVirradWith v "* Files designed by circuit-sim by Nate Ruppert\n"
      = false :=
  isVirradWith_false_of_head_test (by decide)

theorem isVirradWith_h2 (v : Int) (row col : Nat) :
    isVirradWith v ("* Circuit Simulation of " ++ toString row ++
      " Series x " ++ toString col ++
      " Parallel Solar Cell Arrangement\n") = false := by
  apply isVirradWith_false_of_head_test
  simp only [String.data_append, List.append_assoc,
    show ("* Circuit Simulation of " : String).data =
      '*' :: " Circuit Simulation of ".data from rfl,
    List.cons_append]
  exact virrad_prefix_false_of_head (by decide) _

theorem isVirradWith_h3 (v : Int) (n : Nat) (m : Int) :
    isVirradWith v ("* " ++ toString n ++ " Shade " ++ toString m ++
      " No-Shade File\n") = false := by
  apply isVirradWith_false_of_head_test
  simp only [String.data_append, List.append_assoc,
    show ("* " : String).data = '*' :: " ".data from rfl,
    List.cons_append]
  exact virrad_prefix_false_of_head (by decide) _

theorem isVirradWith_include (v : Int) :
    isVirradWith v ".include cell_2.lib\n" = false :=
  isVirradWith_false_of_head_test (by decide)

theorem isVirradWith_option (v temp : Int) :
    isVirradWith v (".option temp=" ++ toString temp) = false := by
  apply isVirradWith_false_of_head_test
  simp only [String.data_append, List.append_assoc,
    show (".option temp=" : String).data = '.' :: "option temp=".data
      from rfl,
    List.cons_append]
  exact virrad_prefix_false_of_head (by decide) _

theorem isVirradWith_vbias (v : Int) :
    isVirradWith v "\nvbias 01 0 dc 0\n" = false :=
  isVirradWith_false_of_head_test (by decide)

theorem isVirradWith_plot (v : Int) :
    isVirradWith v ".plot dc i(vbias)\n" = false :=
  isVirradWith_false_of_head_test (by decide)

theorem isVirradWith_dc (v : Int) (row : Nat) :
    isVirradWith v
      (".dc vbias 0 " ++ pyRepr (dcSweepValue row) ++ " 0.01\n") = false := by
  apply isVirradWith_false_of_head_test
  simp only [String.data_append, List.append_assoc,
    show (".dc vbias 0 " : String).data = '.' :: "dc vbias 0 ".data from rfl,
    List.cons_append]
  exact virrad_prefix_false_of_head (by decide) _

theorem isVirradWith_probe (v : Int) :
    isVirradWith v ".probe\n.end\n" = false :=
  isVirradWith_false_of_head_test (by decide)

/-- Per-cell shade-source count of `create_file`'s writes. -/
theorem cellChunks_countP_shade (i j row n : Nat) (full shade : Int)
    (h1 : ¬ (" dc " ++ toString shade ++ "\n").data <:+
      (" dc " ++ toString full ++ "\n").data)
    (h2 : ¬ (" dc " ++ toString full ++ "\n").data <:+
      (" dc " ++ toString shade ++ "\n").data) :
    (cellChunks i j row n full shade).countP (isVirradWith shade) =
      if (i + 1) * j ≤ n then 1 else 0 := by
  rw [cellChunks]
  by_cases hc : (i + 1) * j ≤ n
  · simp [List.countP_cons, List.countP_nil, isVirradWith_cellCmt,
      isVirradWith_xcell, isVirradWith_plus, isVirradWith_newline, hc,
      isVirradWith_virrad_self]
  · simp [List.countP_cons, List.countP_nil, isVirradWith_cellCmt,
      isVirradWith_xcell, isVirradWith_plus, isVirradWith_newline, hc,
      isVirradWith_virrad_ne shade full i j row h1 h2]

/-- Per-column shade-source count. -/
theorem createFileCol_countP_shade (i row n : Nat) (full shade : Int)
    (h1 : ¬ (" dc " ++ toString shade ++ "\n").data <:+
      (" dc " ++ toString full ++ "\n").data)
    (h2 : ¬ (" dc " ++ toString full ++ "\n").data <:+
      (" dc " ++ toString shade ++ "\n").data) :
    (createFileCol row n full shade i).countP (isVirradWith shade) =
      ((List.range' 1 row).map
        (fun j => if (i + 1) * j ≤ n then 1 else 0)).sum := by
  rw [createFileCol, List.countP_cons, List.flatMap_def,
    List.countP_flatten, List.map_map]
  rw [List.map_congr_left (fun j _ => by
    simpa [Function.comp] using
      cellChunks_countP_shade i j row n full shade h1 h2)]
  rw [isVirradWith_colStart]
  simp

/-- Sums over `List.range'` agree with `Finset.Ico` sums. -/
theorem sum_map_range' (f : Nat → Nat) (s len : Nat) :
    ((List.range' s len).map f).sum = ∑ j ∈ Finset.Ico s (s + len), f j := by
  induction len generalizing s with
  | zero => simp
  | succ n ih =>
    rw [List.range'_succ, List.map_cons, List.sum_cons, ih (s + 1)]
    rw [show s + 1 + n = s + (n + 1) from by omega]
    rw [← Finset.sum_eq_sum_Ico_succ_bot (show s < s + (n + 1) by omega) f]

/-- No header write is a current source. -/
theorem header_countP_zero (v : Int) (row col n : Nat) (m temp : Int) :
    (["* Files designed by circuit-sim by Nate Ruppert\n",
      "* Circuit Simulation of " ++ toString row ++ " Series x " ++
        toString col ++ " Parallel Solar Cell Arrangement\n",
      "* " ++ toString n ++ " Shade " ++ toString m ++ " No-Shade File\n",
      ".include cell_2.lib\n",
      ".option temp=" ++ toString temp, "\n"]).countP (isVirradWith v)
      = 0 := by
  simp [List.countP_cons, isVirradWith_h1, isVirradWith_h2,
    isVirradWith_h3, isVirradWith_include, isVirradWith_option,
    isVirradWith_newline]

/-- No footer write is a current source. -/
theorem footer_countP_zero (v : Int) (row : Nat) :
    (footerChunks row).countP (isVirradWith v) = 0 := by
  simp [footerChunks, List.countP_cons, isVirradWith_vbias,
    isVirradWith_plot, isVirradWith_dc, isVirradWith_probe]

/-- Whole-file shade-source count as a list sum. -/
theorem create_file_writes_countP (row col n : Nat) (full shade temp : Int)
    (h1 : ¬ (" dc " ++ toString shade ++ "\n").data <:+
      (" dc " ++ toString full ++ "\n").data)
    (h2 : ¬ (" dc " ++ toString full ++ "\n").data <:+
      (" dc " ++ toString shade ++ "\n").data) :
    virradCount shade (create_file_writes row col n full shade temp) =
      ∑ i ∈ Finset.range col, ∑ j ∈ Finset.Icc 1 row,
        if (i + 1) * j ≤ n then 1 else 0 := by
  rw [virradCount, create_file_writes, List.countP_append,
    List.countP_append, header_countP_zero, footer_countP_zero]
  rw [List.flatMap_def, List.countP_flatten, List.map_map]
  rw [List.map_congr_left (fun i _ => by
    simpa [Function.comp] using
      createFileCol_countP_shade i row n full shade h1 h2)]
  rw [List.map_congr_left (fun i _ => sum_map_range'
    (fun j => if (i + 1) * j ≤ n then 1 else 0) 1 row)]
  rw [List.range_eq_range', sum_map_range' _ 0 col]
  rw [Finset.range_eq_Ico]
  simp only [Nat.zero_add, Nat.add_zero]
  apply Finset.sum_congr rfl
  intro i _
  apply Finset.sum_congr (by rw [Nat.add_comm 1 row, Nat.Ico_succ_right])
  intro j _
  rfl

/-- With `num_shade = 0` every cell's source carries the full level. -/
theorem createFileCol_countP_full (i row : Nat) (full shade : Int) :
    (createFileCol row 0 full shade i).countP (isVirradWith full) = row := by
  rw [createFileCol, List.countP_cons, List.flatMap_def,
    List.countP_flatten, List.map_map]
  rw [List.map_congr_left (fun j hj => by
    have hj1 : 1 ≤ j := (List.mem_range'_1.1 hj).1
    have hle : ¬ (i + 1) * j ≤ 0 := by
      intro h
      have h2 : (i + 1) * j = 0 := Nat.le_zero.1 h
      rcases Nat.mul_eq_zero.1 h2 with h3 | h3 <;> omega
    show (List.countP (isVirradWith full) ∘
        fun j => cellChunks i j row 0 full shade) j = (fun _ => 1) j
    simp [Function.comp, cellChunks, List.countP_cons, hle,
      isVirradWith_cellCmt, isVirradWith_xcell, isVirradWith_plus,
      isVirradWith_newline, isVirradWith_virrad_self])]
  rw [isVirradWith_colStart]
  simp

/-- Claim C10: In `create_file`, provided the rendered full and shade levels
are distinguishable, the number of shade-level current sources in the
generated text equals the number of positions `(i, j)` (column `i`
0-based, row `j` 1-based) with `(i + 1) * j ≤ num_shade`; for
`num_shade = 0` there are no shade-level sources and all `row * col`
sources carry the full level; and the text contains, for every cell, the
current-source line with the shade value exactly when `(i + 1) * j ≤
num_shade` and the full value otherwise. -/
theorem create_file_shading_spec (row col n : Nat) (full shade temp : Int)
    (h1 : ¬ (" dc " ++ toString shade ++ "\n").data <:+
      (" dc " ++ toString full ++ "\n").data)
    (h2 : ¬ (" dc " ++ toString full ++ "\n").data <:+
      (" dc " ++ toString shade ++ "\n").data) :
    virradCount shade (create_file_writes row col n full shade temp) =
      (((Finset.range col) ×ˢ (Finset.Icc 1 row)).filter
        (fun p => (p.1 + 1) * p.2 ≤ n)).card ∧
    (virradCount shade (create_file_writes row col 0 full shade temp) = 0 ∧
      virradCount full (create_file_writes row col 0 full shade temp) =
        row * col) ∧
    (∀ i j, i < col → 1 ≤ j → j ≤ row →
      virradChunk i j row (if (i + 1) * j ≤ n then shade else full) ∈
        create_file_writes row col n full shade temp) := by
  refine ⟨?_, ⟨?_, ?_⟩, ?_⟩
  · rw [create_file_writes_countP row col n full shade temp h1 h2,
      Finset.card_filter, Finset.sum_product]
  · rw [create_file_writes_countP row col 0 full shade temp h1 h2]
    apply Finset.sum_eq_zero
    intro i _
    apply Finset.sum_eq_zero
    intro j hj
    have hj1 : 1 ≤ j := (Finset.mem_Icc.1 hj).1
    have : ¬ (i + 1) * j ≤ 0 := by
      intro h
      have h2 : (i + 1) * j = 0 := Nat.le_zero.1 h
      rcases Nat.mul_eq_zero.1 h2 with h3 | h3 <;> omega
    simp [this]
  · rw [virradCount, create_file_writes, List.countP_append,
      List.countP_append, header_countP_zero, footer_countP_zero]
    rw [List.flatMap_def, List.countP_flatten, List.map_map]
    rw [List.map_congr_left (fun i _ => by
      simpa [Function.comp] using createFileCol_countP_full i row full shade)]
    rw [List.range_eq_range', sum_map_range' _ 0 col]
    simp [Finset.sum_const, Nat.mul_comm]
  · intro i j hi hj1 hjr
    rw [create_file_writes]
    refine List.mem_append.2 (Or.inl (List.mem_append.2 (Or.inr ?_)))
    refine List.mem_flatMap.2 ⟨i, List.mem_range.2 hi, ?_⟩
    rw [createFileCol]
    refine List.mem_cons_of_mem _ ?_
    refine List.mem_flatMap.2 ⟨j, List.mem_range'_1.2 ⟨hj1, by omega⟩, ?_⟩
    simp [cellChunks]

/-- Witness for `create_file_shading_spec` at
`row = 2, col = 2, n = 1, full = 1000, shade = 900`. -/
theorem create_file_shading_spec_witness :
    (¬ (" dc " ++ toString (900 : Int) ++ "\n").data <:+
      (" dc " ++ toString (1000 : Int) ++ "\n").data) ∧
    (¬ (" dc " ++ toString (1000 : Int) ++ "\n").data <:+
      (" dc " ++ toString (900 : Int) ++ "\n").data) ∧
    virradCount 900 (create_file_writes 2 2 1 1000 900 30) =
      (((Finset.range 2) ×ˢ (Finset.Icc 1 2)).filter
        (fun p => (p.1 + 1) * p.2 ≤ 1)).card :=
  ⟨by decide, by decide,
    (create_file_shading_spec 2 2 1 1000 900 30 (by decide) (by decide)).1⟩

/-! ## C3: per-cell power derivation in `data_analysis`
(analysis.py lines 266-329)

One sample of the sweep is modelled: `get` maps an LTspice signal name to
its (rational) value at that sample, and the per-cell power arithmetic is
performed pointwise exactly as the source does.  Values use the
kernel-reducible rational type `QD`. -/

/-- The per-cell power computed by `data_analysis` for the cell at 0-based
column `i`, 1-based row `j` of a `series`-row result (the `Shading` branch;
`parallel` does not enter the computation, only the loop bounds):

```
cell_n = i * series + j
volt_a = cell_a if j != 1 else '01'
volt_b = f"{i}{j + 1}" if cell_n < series else ""
...
if sec: result = (v_in - v_out) * cell_data
else:   result = v_in * cell_data
```
-/
def cellPower (get : String → QD) (series i j : Nat) : QD :=
  let cell_a := toString i ++ toString j
  let cell_b := toString i ++ toString (j + 1)
  let cell_n := i * series + j
  let volt_a := if j ≠ 1 then cell_a else "01"
  let prim := "V(" ++ volt_a ++ ")"
  let sec := if cell_n < series then
    "V(" ++ toString i ++ toString (j + 1) ++ ")" else ""
  let cell := "Ix(cell_" ++ cell_a ++ "_" ++ cell_b ++ ":300)"
  if cell_n < series then ((get prim).sub (get sec)).mul (get cell)
  else (get prim).mul (get cell)

/-- The derivation as claim C3 states it: every cell's power is the
difference between its node voltage and its neighbour's node voltage
(ground, i.e. 0, for the last cell of a column) times its diode branch
current, with the single exception that the first cell of a column reads
the shared probe node `V(01)` directly. -/
def cellPowerClaimed (get : String → QD) (series i j : Nat) : QD :=
  let cell_a := toString i ++ toString j
  let cell_b := toString i ++ toString (j + 1)
  let cell := "Ix(cell_" ++ cell_a ++ "_" ++ cell_b ++ ":300)"
  if j = 1 then (get "V(01)").mul (get cell)
  else ((get ("V(" ++ cell_a ++ ")")).sub
      (if j < series then get ("V(" ++ cell_b ++ ")") else QD.ofInt 0)).mul
    (get cell)

/-- A concrete sweep sample for a 3×3 result: `V(12) = 3`, `V(13) = 2`,
`Ix(cell_12_13:300) = 1`, everything else 0. -/
def exampleGet : String → QD := fun s =>
  if s = "V(12)" then QD.ofInt 3
  else if s = "V(13)" then QD.ofInt 2
  else if s = "Ix(cell_12_13:300)" then QD.ofInt 1
  else QD.ofInt 0

/-- Claim C3, failing input: For the interior cell at column index 1, row 2
of a 3×3 result, the code multiplies the bare node voltage `V(12)` by the
diode current — its guard compares the global cell index
`i * series + j = 5` against `series = 3`, and its comment claims "vout is
ground" although node 13 is not ground — yielding 3 instead of the
neighbour-difference power `(V(12) - V(13)) * I = 1` required by the
claim. -/
theorem cellPower_bug :
    (cellPower exampleGet 3 1 2).beq (QD.ofInt 3) = true ∧
    (cellPowerClaimed exampleGet 3 1 2).beq (QD.ofInt 1) = true ∧
    (cellPower exampleGet 3 1 2).beq (cellPowerClaimed exampleGet 3 1 2)
      = false := by
  refine ⟨by decide, by decide, by decide⟩

/-! ## C5: the run dispatcher `run_ltspice` (analysis.py lines 37-77)

The dispatcher is modelled by the trace of process-control effects it
performs.  In the source, the entire timeout/termination block (both the
in-loop check and the drain loop) is commented out: the live code is
exactly `Popen(commands[i])` followed by `time.sleep(0.1)` for each
command, and the queue is only ever filled. -/

inductive DispatchAction where
  /-- Call `Popen(command, startupinfo=s)`. -/
  | spawn (cmd : String)
  /-- Call `time.sleep(0.1)`. -/
  | sleep
  /-- Call `process.terminate()` — present only in commented-out code. -/
  | terminate (cmd : String)
  /-- any blocking wait on a process — nowhere in the function. -/
  | wait (cmd : String)
deriving DecidableEq, Repr

def isTerminate : DispatchAction → Bool
  | .terminate _ => true
  | _ => false

def isWait : DispatchAction → Bool
  | .wait _ => true
  | _ => false

/-- The effect trace of `run_ltspice(commands)`. -/
def run_ltspice (commands : List String) : List DispatchAction :=
  commands.flatMap (fun c => [.spawn c, .sleep])

/-- Claim C5, counterexample: `run_ltspice` never terminates any process:
its trace for a single command is spawn-then-sleep, with no terminate
action, so a process still running after any timeout is *not* forcibly
terminated. -/
theorem run_ltspice_no_terminate_counterexample :
    run_ltspice ["XVIIx64.exe -b -Run f.cir"] =
      [.spawn "XVIIx64.exe -b -Run f.cir", .sleep] ∧
    (run_ltspice ["XVIIx64.exe -b -Run f.cir"]).all
      (fun a => !isTerminate a) = true := by
  exact ⟨rfl, by decide⟩

/-- Claim C5, amended: The dispatcher spawns each command in order with a
fixed sleep after each spawn and performs no process control at all:
its trace contains no terminate and no wait action (the timeout logic is
commented out), so no process is awaited — and none is ever terminated. -/
theorem run_ltspice_spec (commands : List String) :
    (run_ltspice commands).filterMap
        (fun a => match a with | .spawn c => some c | _ => none) =
      commands ∧
    (∀ a ∈ run_ltspice commands,
      isTerminate a = false ∧ isWait a = false) := by
  constructor
  · induction commands with
    | nil => rfl
    | cons c rest ih =>
      rw [run_ltspice, List.flatMap_cons, List.filterMap_append]
      rw [run_ltspice] at ih
      rw [ih]
      rfl
  · intro a ha
    obtain ⟨c, -, hmem⟩ := List.mem_flatMap.1 ha
    simp only [List.mem_cons, List.not_mem_nil, or_false] at hmem
    rcases hmem with rfl | rfl
    · exact ⟨rfl, rfl⟩
    · exact ⟨rfl, rfl⟩

/-- Witness for `run_ltspice_spec` at a concrete command list. -/
theorem run_ltspice_spec_witness :
    (DispatchAction.spawn "a" ∈ run_ltspice ["a", "b"]) ∧
    isTerminate (DispatchAction.spawn "a") = false ∧
    isWait (DispatchAction.spawn "a") = false :=
  ⟨by decide,
    (run_ltspice_spec ["a", "b"]).2 (.spawn "a") (by decide)⟩

/-! ## C4: corrupt-result handling in `data_analysis`
(analysis.py lines 138-439)

The harvest is modelled at the level of its control flow over the
directory tree.  A `.raw` result file either parses (`valid = true`) or
raises `FileSizeNotMatchException`/`IndexError` (`valid = false`); a
parsed file contributes one record, identified here by its file name.

* Per temperature directory, the file loop deletes each corrupt file,
  sets the run-wide `bad_data` flag and continues; the surviving records
  are split into the normal (`gigantor`) and special (`specialdf`) lists.
* After the loop the source calls `pd.concat(gigantor)` and
  `pd.concat(specialdf)`; `pandas` raises `ValueError` ("No objects to
  concatenate") on an empty list, which aborts the whole invocation —
  modelled by the `crashed` flag (side effects performed so far are
  kept).
* Per dataset, the rollup is written when at least one directory was
  scanned (`len(temp_list) > 0`); otherwise a previously written rollup
  is loaded if `Output/Data/<dataset>-Special.csv` exists, else
  `bad_data` is set.
* The three top-level `all_cell_data*.csv` files are written only when
  `bad_data` is false (and no exception occurred). -/

/-- One simulator result file as the harvester sees it. -/
structure RawFile where
  name : String
  /-- a fault-case (`Open`/`Short`) result rather than a `Shading` one -/
  special : Bool
  /-- the binary waveform parses without raising -/
  valid : Bool
deriving DecidableEq, Repr

/-- The file loop of one temperature directory:
`(deleted corrupt files, bad-data flag, normal records, special records)`. -/
def processDir (files : List RawFile) :
    List String × Bool × List String × List String :=
  ((files.filter (fun f => !f.valid)).map (·.name),
   files.any (fun f => !f.valid),
   (files.filter (fun f => f.valid && !f.special)).map (·.name),
   (files.filter (fun f => f.valid && f.special)).map (·.name))

/-- Accumulated outcome of the directory loop of one dataset. -/
structure DirsResult where
  deleted : List String
  flag : Bool
  /-- per-directory CSV contents (normal records then special records) -/
  dirReports : List (List String)
  normals : List String
  specials : List String
  crashed : Bool
deriving DecidableEq, Repr

/-- The directory loop of one dataset.  A directory whose surviving normal
or special record list is empty makes `pd.concat` raise, aborting the
run. -/
def runDirs : List (List RawFile) → DirsResult
  | [] => ⟨[], false, [], [], [], false⟩
  | d :: rest =>
    let p := processDir d
    if p.2.2.1 = [] ∨ p.2.2.2 = [] then ⟨p.1, p.2.1, [], [], [], true⟩
    else
      let r := runDirs rest
      ⟨p.1 ++ r.deleted, p.2.1 || r.flag,
        (p.2.2.1 ++ p.2.2.2) :: r.dirReports,
        p.2.2.1 ++ r.normals, p.2.2.2 ++ r.specials, r.crashed⟩

/-- Accumulated outcome of the dataset loop. -/
structure RunResult where
  deleted : List String
  badData : Bool
  dirReports : List (List String)
  datasetReports : List (String × List String)
  /-- Markers for `dataframe_list ++ dataframe_list_special` content -/
  collected : List String
  crashed : Bool
deriving DecidableEq, Repr

/-- The dataset loop of `data_analysis`.  `priorL` lists the datasets for
which `Output/Data/<dataset>-Special.csv` already exists on disk. -/
def runDatasets :
    List (String × List (List RawFile)) → List String → RunResult
  | [], _ => ⟨[], false, [], [], [], false⟩
  | (name, dirs) :: rest, priorL =>
    let r := runDirs dirs
    if r.crashed then ⟨r.deleted, r.flag, r.dirReports, [], [], true⟩
    else
      let b :=
        if dirs ≠ [] then (r.flag, [(name, r.normals ++ r.specials)],
          r.normals ++ r.specials)
        else if name ∈ priorL then (false, [], ["prior:" ++ name])
        else (true, [], [])
      let rr := runDatasets rest priorL
      ⟨r.deleted ++ rr.deleted, b.1 || rr.badData,
        r.dirReports ++ rr.dirReports, b.2.1 ++ rr.datasetReports,
        b.2.2 ++ rr.collected, rr.crashed⟩

/-- Function `data_analysis`: the dataset loop followed by the guarded write of the
top-level combined reports (`none` = not written). -/
def data_analysis (datasets : List (String × List (List RawFile)))
    (priorL : List String) : RunResult × Option (List String) :=
  let r := runDatasets datasets priorL
  (r, if r.crashed then none
      else if r.badData then none else some r.collected)

/-- A run in which the first dataset's only temperature directory holds a
single corrupt normal result, while a second dataset still has a valid
result waiting to be harvested. -/
def crashedTree : List (String × List (List RawFile)) :=
  [("1000-900", [[⟨"2x4_0_Shading.raw", false, false⟩]]),
   ("500-450", [[⟨"2x4_0_Shading.raw", false, true⟩,
     ⟨"2x4_1_Open.raw", true, true⟩]])]

/-- Claim C4, counterexample: When a directory loses its only valid normal
result to corruption, the harvester deletes the file and sets the degraded
flag, but `pd.concat` of the now-empty record list raises and the whole
invocation aborts: the second dataset's valid result is never processed
and no per-directory report at all is written — the claim's "continues
processing every remaining result file" and "valid results are still
folded into the lower-tier outputs" fail. -/
theorem data_analysis_crash_counterexample :
    ((data_analysis crashedTree []).1).crashed = true ∧
    ((data_analysis crashedTree []).1).deleted = ["2x4_0_Shading.raw"] ∧
    ((data_analysis crashedTree []).1).dirReports = [] ∧
    ((data_analysis crashedTree []).1).badData = true ∧
    (data_analysis crashedTree []).2 = none := by
  refine ⟨by decide, by decide, by decide, by decide, by decide⟩

/-- Directory-loop invariants when every directory keeps at least one
valid normal and one valid special record. -/
theorem runDirs_ok (dirs : List (List RawFile))
    (hv : ∀ d ∈ dirs,
      (d.filter (fun f => f.valid && !f.special)) ≠ [] ∧
      (d.filter (fun f => f.valid && f.special)) ≠ []) :
    (runDirs dirs).crashed = false ∧
    (runDirs dirs).flag = dirs.any (fun d => d.any (fun f => !f.valid)) ∧
    (∀ d ∈ dirs, ∀ f ∈ d, f.valid = false →
      f.name ∈ (runDirs dirs).deleted) ∧
    (∀ d ∈ dirs, ∀ f ∈ d, f.valid = true →
      f.name ∈ (runDirs dirs).dirReports.flatten) := by
  induction dirs with
  | nil => exact ⟨rfl, rfl, by simp, by simp⟩
  | cons d rest ih =>
    obtain ⟨hn, hs⟩ := hv d (List.mem_cons_self _ _)
    obtain ⟨ihc, ihf, ihd, ihr⟩ :=
      ih (fun x hx => hv x (List.mem_cons_of_mem _ hx))
    have hcond : ¬ ((processDir d).2.2.1 = [] ∨ (processDir d).2.2.2 = []) := by
      rintro (h | h)
      · exact hn (List.map_eq_nil_iff.1 h)
      · exact hs (List.map_eq_nil_iff.1 h)
    refine ⟨?_, ?_, ?_, ?_⟩
    · rw [runDirs, if_neg hcond]
      exact ihc
    · rw [runDirs, if_neg hcond]
      show ((processDir d).2.1 || (runDirs rest).flag) = _
      rw [ihf]
      rfl
    · intro x hx f hf hfv
      rw [runDirs, if_neg hcond]
      show f.name ∈ (processDir d).1 ++ (runDirs rest).deleted
      rcases List.mem_cons.1 hx with rfl | hx
      · refine List.mem_append.2 (Or.inl ?_)
        exact List.mem_map.2 ⟨f, List.mem_filter.2 ⟨hf, by simp [hfv]⟩, rfl⟩
      · exact List.mem_append.2 (Or.inr (ihd x hx f hf hfv))
    · intro x hx f hf hfv
      rw [runDirs, if_neg hcond]
      show f.name ∈ (((processDir d).2.2.1 ++ (processDir d).2.2.2) ::
        (runDirs rest).dirReports).flatten
      rw [List.flatten_cons]
      rcases List.mem_cons.1 hx with rfl | hx
      · refine List.mem_append.2 (Or.inl ?_)
        cases hsb : f.special
        · refine List.mem_append.2 (Or.inl ?_)
          exact List.mem_map.2
            ⟨f, List.mem_filter.2 ⟨hf, by simp [hfv, hsb]⟩, rfl⟩
        · refine List.mem_append.2 (Or.inr ?_)
          exact List.mem_map.2
            ⟨f, List.mem_filter.2 ⟨hf, by simp [hfv, hsb]⟩, rfl⟩
      · exact List.mem_append.2 (Or.inr (ihr x hx f hf hfv))

/-- Dataset-loop invariants under the same hypothesis. -/
theorem runDatasets_ok (datasets : List (String × List (List RawFile)))
    (priorL : List String)
    (hv : ∀ p ∈ datasets, ∀ d ∈ p.2,
      (d.filter (fun f => f.valid && !f.special)) ≠ [] ∧
      (d.filter (fun f => f.valid && f.special)) ≠ []) :
    (runDatasets datasets priorL).crashed = false ∧
    ((∃ p ∈ datasets, ∃ d ∈ p.2, ∃ f ∈ d, f.valid = false) →
      (runDatasets datasets priorL).badData = true) ∧
    (∀ p ∈ datasets, ∀ d ∈ p.2, ∀ f ∈ d, f.valid = false →
      f.name ∈ (runDatasets datasets priorL).deleted) ∧
    (∀ p ∈ datasets, ∀ d ∈ p.2, ∀ f ∈ d, f.valid = true →
      f.name ∈ (runDatasets datasets priorL).dirReports.flatten) := by
  induction datasets with
  | nil =>
    refine ⟨rfl, ?_, ?_, ?_⟩
    · rintro ⟨p, hp, -⟩
      cases hp
    · intro p hp
      cases hp
    · intro p hp
      cases hp
  | cons pd rest ih =>
    obtain ⟨name, dirs⟩ := pd
    obtain ⟨hc, hf, hd, hr⟩ :=
      runDirs_ok dirs (fun d hd => hv (name, dirs)
        (List.mem_cons_self _ _) d hd)
    obtain ⟨ihc, ihb, ihd, ihr⟩ :=
      ih (fun p hp => hv p (List.mem_cons_of_mem _ hp))
    have hnc : ¬ (runDirs dirs).crashed = true := by
      rw [hc]
      exact Bool.false_ne_true
    refine ⟨?_, ?_, ?_, ?_⟩
    · rw [runDatasets, if_neg hnc]
      exact ihc
    · rintro ⟨p, hp, d, hpd, f, hfd, hfv⟩
      rw [runDatasets, if_neg hnc]
      show ((if dirs ≠ [] then
          ((runDirs dirs).flag,
            [(name, (runDirs dirs).normals ++ (runDirs dirs).specials)],
            (runDirs dirs).normals ++ (runDirs dirs).specials)
        else if name ∈ priorL then (false, [], ["prior:" ++ name])
        else (true, [], [])).1 || (runDatasets rest priorL).badData) = true
      rcases List.mem_cons.1 hp with rfl | hp
      · have hdirs : dirs ≠ [] := by
          intro h
          rw [h] at hpd
          cases hpd
        have hflag : (runDirs dirs).flag = true := by
          rw [hf]
          exact List.any_eq_true.2
            ⟨d, hpd, List.any_eq_true.2 ⟨f, hfd, by simp [hfv]⟩⟩
        rw [if_pos hdirs, hflag, Bool.true_or]
      · rw [ihb ⟨p, hp, d, hpd, f, hfd, hfv⟩, Bool.or_true]
    · intro p hp d hpd f hfd hfv
      rw [runDatasets, if_neg hnc]
      show f.name ∈ (runDirs dirs).deleted ++ (runDatasets rest priorL).deleted
      rcases List.mem_cons.1 hp with rfl | hp
      · exact List.mem_append.2 (Or.inl (hd d hpd f hfd hfv))
      · exact List.mem_append.2 (Or.inr (ihd p hp d hpd f hfd hfv))
    · intro p hp d hpd f hfd hfv
      rw [runDatasets, if_neg hnc]
      show f.name ∈ ((runDirs dirs).dirReports ++
        (runDatasets rest priorL).dirReports).flatten
      rw [List.flatten_append]
      rcases List.mem_cons.1 hp with rfl | hp
      · exact List.mem_append.2 (Or.inl (hr d hpd f hfd hfv))
      · exact List.mem_append.2 (Or.inr (ihr p hp d hpd f hfd hfv))

/-- Claim C4, amended: Provided every scanned temperature directory retains
at least one valid normal and one valid special result (otherwise the
empty-concatenation error aborts the run), `data_analysis` deletes every
corrupt result file, continues through every remaining result file —
folding each valid result into its per-directory report — and, whenever
any corruption was encountered, sets the run-wide degraded flag and does
not write the top-level combined reports. -/
theorem data_analysis_degraded_spec
    (datasets : List (String × List (List RawFile))) (priorL : List String)
    (hv : ∀ p ∈ datasets, ∀ d ∈ p.2,
      (d.filter (fun f => f.valid && !f.special)) ≠ [] ∧
      (d.filter (fun f => f.valid && f.special)) ≠ []) :
    ((data_analysis datasets priorL).1).crashed = false ∧
    ((∃ p ∈ datasets, ∃ d ∈ p.2, ∃ f ∈ d, f.valid = false) →
      ((data_analysis datasets priorL).1).badData = true ∧
      (data_analysis datasets priorL).2 = none) ∧
    (∀ p ∈ datasets, ∀ d ∈ p.2, ∀ f ∈ d, f.valid = false →
      f.name ∈ ((data_analysis datasets priorL).1).deleted) ∧
    (∀ p ∈ datasets, ∀ d ∈ p.2, ∀ f ∈ d, f.valid = true →
      f.name ∈ ((data_analysis datasets priorL).1).dirReports.flatten) := by
  obtain ⟨hc, hb, hd, hr⟩ := runDatasets_ok datasets priorL hv
  refine ⟨hc, ?_, hd, hr⟩
  intro hex
  have hbad := hb hex
  refine ⟨hbad, ?_⟩
  show (if (runDatasets datasets priorL).crashed then none
    else if (runDatasets datasets priorL).badData then none
    else some (runDatasets datasets priorL).collected) = none
  rw [hc, hbad]
  rfl

/-- Witness for `data_analysis_degraded_spec`: one dataset whose directory
holds a valid normal result, a valid special result and one corrupt
file. -/
theorem data_analysis_degraded_spec_witness :
    ((data_analysis
        [("1000-900", [[⟨"2x4_0_Shading.raw", false, true⟩,
          ⟨"2x4_1_Open.raw", true, true⟩,
          ⟨"2x4_1_Shading.raw", false, false⟩]])] []).1).badData = true ∧
    (data_analysis
        [("1000-900", [[⟨"2x4_0_Shading.raw", false, true⟩,
          ⟨"2x4_1_Open.raw", true, true⟩,
          ⟨"2x4_1_Shading.raw", false, false⟩]])] []).2 = none :=
  (data_analysis_degraded_spec
    [("1000-900", [[⟨"2x4_0_Shading.raw", false, true⟩,
      ⟨"2x4_1_Open.raw", true, true⟩,
      ⟨"2x4_1_Shading.raw", false, false⟩]])] []
    (by decide)).2.1 (by decide)

end CircuitSim
